import Mathlib

/-!
Shallow embedding of `src/PersonalCommute/PersonalCommuteCalc.jsx`
(the `PersonalCalculator` React component of vizik24/journeyEmissions).

JavaScript numbers are modelled as exact rationals (`ℚ`), with a separate
`nan` constructor for the `NaN` value that `Number.parseInt` /
`Number.parseFloat` can produce.  React `useState` cells become fields of
`CalcState`; the browser URL query string becomes the `query` field of
`World`; user/network events become an explicit `Event` type with a `step`
function.
-/

/-- A JavaScript number: either `NaN` or a (rational-modelled) numeric value. -/
inductive JSNum where
  | nan : JSNum
  | num : ℚ → JSNum
deriving DecidableEq, Repr

namespace JourneyEmissions

/-- `const KG_CO2_PER_TREE_PER_YEAR = 25` (line 8 of the source). -/
def KG_CO2_PER_TREE_PER_YEAR : ℚ := 25

/-- `calculateTreesNeeded` (source lines 66–70):
`const annualEmissions = emissions * 2 * 230; return Math.ceil(annualEmissions / KG_CO2_PER_TREE_PER_YEAR)`. -/
def calculateTreesNeeded (emissions : ℚ) : ℤ :=
  let annualEmissions : ℚ := emissions * 2 * 230
  ⌈annualEmissions / KG_CO2_PER_TREE_PER_YEAR⌉

/-- `calculateTreesNeeded` lifted to JavaScript numbers: `Math.ceil NaN = NaN`,
and all the arithmetic in the body propagates `NaN`. -/
def jsCalculateTreesNeeded : JSNum → JSNum
  | .nan => .nan
  | .num e => .num (calculateTreesNeeded e)

/-! ## JavaScript string/number primitives used by the component -/

/-- Digit character to value. -/
def digitVal (c : Char) : ℕ := c.toNat - '0'.toNat

/-- Value of a list of decimal digit characters (most significant first). -/
def digitsVal : List Char → ℕ
  | [] => 0
  | c :: cs => digitVal c * 10 ^ cs.length + digitsVal cs

/-- Longest prefix of decimal digits. -/
def takeDigits (cs : List Char) : List Char := cs.takeWhile (·.isDigit)

/-- Rest after the longest prefix of decimal digits. -/
def dropDigits (cs : List Char) : List Char := cs.dropWhile (·.isDigit)

/-- Optional leading sign: returns (sign, rest); sign is `-1` for `'-'`, else `1`. -/
def parseSign : List Char → ℤ × List Char
  | '-' :: cs => (-1, cs)
  | '+' :: cs => (1, cs)
  | cs => (1, cs)

/-- `Number.parseInt(s, 10)`: optional sign then the longest digit prefix
(trailing garbage ignored); `NaN` when no digit is found.  Leading whitespace
skipping is not modelled (no claim exercises it). -/
def parseIntJS (s : String) : JSNum :=
  let (sign, rest) := parseSign s.toList
  let ds := takeDigits rest
  if ds.isEmpty then .nan else .num ((sign * (digitsVal ds : ℤ) : ℤ) : ℚ)

/-- `Number.parseFloat(s)`: optional sign, integer digits, optional `'.'` and
fraction digits (trailing garbage ignored); `NaN` when no digit is found at
all.  Exponent notation and leading whitespace are not modelled (no claim
exercises them). -/
def parseFloatJS (s : String) : JSNum :=
  let (sign, rest) := parseSign s.toList
  let intDs := takeDigits rest
  let rest2 := dropDigits rest
  let fracDs := match rest2 with
    | '.' :: cs => takeDigits cs
    | _ => []
  if intDs.isEmpty ∧ fracDs.isEmpty then .nan
  else
    .num ((sign : ℚ) * ((digitsVal intDs : ℚ) + (digitsVal fracDs : ℚ) / 10 ^ fracDs.length))

/-- `'x'.replace(' ', '')` in JavaScript removes only the FIRST occurrence of
the space character. -/
def removeFirstSpace : List Char → List Char
  | [] => []
  | c :: cs => if c = ' ' then cs else c :: removeFirstSpace cs

/-- `s.replace(' ', '')` on strings. -/
def replaceFirstSpace (s : String) : String := String.mk (removeFirstSpace s.toList)

/-- `s.toUpperCase()` (ASCII, which covers postcode characters): map
`Char.toUpper` over the characters. -/
def toUpperJS (s : String) : String := String.mk (s.toList.map Char.toUpper)

/-- `s.toLowerCase()` (ASCII, which covers the travel-method identifiers):
map `Char.toLower` over the characters. -/
def toLowerJS (s : String) : String := String.mk (s.toList.map Char.toLower)

/-! ## Number-to-string: `Number.prototype.toString` on our rational model

JavaScript prints a number as the shortest decimal representation; on our
exact-rational model this is: no decimal point for integers, otherwise the
minimal-length exact decimal expansion (no trailing zeros).  Rationals with
no finite decimal expansion fall outside the double model and are rendered
by a placeholder (never reached by the claims). -/

/-- Number of times `p` divides `n` (with fuel; `p ≥ 2`, `n ≥ 1` intended). -/
def countFactor (p : ℕ) : ℕ → ℕ → ℕ
  | 0, _ => 0
  | fuel + 1, n => if 2 ≤ p ∧ n ≠ 0 ∧ n % p = 0 then countFactor p fuel (n / p) + 1 else 0

/-- Smallest `k` with `d ∣ 10 ^ k`, when it exists (i.e. when `d = 2^a * 5^b`). -/
def decExp (d : ℕ) : Option ℕ :=
  let a := countFactor 2 d d
  let b := countFactor 5 d d
  if d = 2 ^ a * 5 ^ b then some (max a b) else none

/-- Left-pad a digit list with `'0'` up to length `n`. -/
def padZeros (n : ℕ) (ds : List Char) : List Char :=
  List.replicate (n - ds.length) '0' ++ ds

/-- The decimal digit character for `d < 10` (`'0' + d`). -/
def digitChar (d : ℕ) : Char := Char.ofNat (48 + d)

/-- Decimal digit characters of `n`, most significant first, by repeated
division (fuel-structural so that it computes by kernel reduction). -/
def natDigitsAux : ℕ → ℕ → List Char
  | 0, _ => []
  | fuel + 1, n => if n = 0 then [] else natDigitsAux fuel (n / 10) ++ [digitChar (n % 10)]

/-- Decimal digit characters of `n`, most significant first (`"0"` for 0). -/
def natToDigits (n : ℕ) : List Char :=
  if n = 0 then ['0'] else natDigitsAux n n

/-- Decimal string of an integer, as JavaScript prints it (`-` sign then
the digits). -/
def intToDecString (m : ℤ) : String :=
  (if m < 0 then "-" else "") ++ String.mk (natToDigits m.natAbs)

/-- Decimal string of a rational with a finite decimal expansion, in
JavaScript `toString` format: minimal digits, `-` sign, no trailing zeros. -/
def qToDecString (q : ℚ) : String :=
  match decExp q.den with
  | none => "<nonterminating-decimal>"
  | some k =>
    let m : ℤ := q.num * ((10 ^ k : ℤ) / (q.den : ℤ))
    if k = 0 then intToDecString m
    else
      let sign := if m < 0 then "-" else ""
      let ds := padZeros (k + 1) (natToDigits m.natAbs)
      sign ++ String.mk (ds.take (ds.length - k)) ++ "." ++ String.mk (ds.drop (ds.length - k))

/-- `n.toString()` on a JavaScript number. -/
def jsNumToString : JSNum → String
  | .nan => "NaN"
  | .num q => qToDecString q

/-! ## Component state

One field per `useState` cell of the calculator proper (source lines 25–34).
The CTA-form cells (lines 37–40) play no role in any transition and are
omitted.  `Option` models JavaScript `null` (`carbonEmissions`, `error`). -/

structure CalcState where
  homePostcode : String
  workPostcode : String
  travelMethod : String
  carbonEmissions : Option JSNum
  treesNeeded : JSNum
  isLoading : Bool
  error : Option String
  isSharedView : Bool
deriving DecidableEq, Repr

/-- The initial `useState` values (source lines 25–34). -/
def initState : CalcState :=
  { homePostcode := ""
    workPostcode := ""
    travelMethod := ""
    carbonEmissions := none
    treesNeeded := .num 0
    isLoading := false
    error := none
    isSharedView := false }

/-- The browser world the component lives in: component state plus the URL
query parameters (`window.location.search`, mutated by
`window.history.pushState`). -/
structure World where
  comp : CalcState
  query : List (String × String)
deriving DecidableEq, Repr

/-- `urlParams.get(k)`: first value bound to `k`, or JavaScript `null`. -/
def getParam (q : List (String × String)) (k : String) : Option String :=
  (q.find? (fun p => p.1 = k)).map Prod.snd

/-- JavaScript truthiness of `urlParams.get(...)`: non-null and non-empty. -/
def truthy : Option String → Bool
  | none => false
  | some s => !s.isEmpty

/-- The shared-view `useEffect` body (source lines 45–58): if both the
`trees` and `emissions` parameters are truthy, store
`Number.parseInt(trees, 10)` and `Number.parseFloat(emissions)`, enter
shared view, and adopt `method` when truthy; otherwise do nothing. -/
def applySharedDecode (trees emissions method : Option String) (s : CalcState) : CalcState :=
  if truthy trees ∧ truthy emissions then
    { s with
      treesNeeded := parseIntJS ((trees.getD ""))
      carbonEmissions := some (parseFloatJS ((emissions.getD "")))
      isSharedView := true
      travelMethod := if truthy method then method.getD "" else s.travelMethod }
  else s

/-- The JSON body sent to `POST /single-journey` (source lines 91–95). -/
structure EstimateRequest where
  origin : String
  destination : String
  mode : String
deriving DecidableEq, Repr

/-- Request normalisation (source lines 92–94):
`origin: homePostcode.replace(' ', '').toUpperCase()`,
`destination: workPostcode.replace(' ', '').toUpperCase()`,
`mode: travelMethod.toLowerCase()`. -/
def buildRequest (s : CalcState) : EstimateRequest :=
  { origin := toUpperJS (replaceFirstSpace s.homePostcode)
    destination := toUpperJS (replaceFirstSpace s.workPostcode)
    mode := toLowerJS s.travelMethod }

/-- Outcome of one estimation attempt, as seen by `handleVisualize`:
the `fetch` promise rejects with an `Error` carrying `msg` (network error);
the response arrives with `!response.ok`; `response.json()` rejects with an
`Error` carrying `msg` (malformed payload); or the payload parses and its
`emissions_kgCO2e` field is the given number. -/
inductive FetchOutcome where
  | fetchReject (msg : String)
  | httpError
  | jsonReject (msg : String)
  | success (e : JSNum)
deriving DecidableEq, Repr

/-- `handleVisualize` (source lines 75–114), as a function from the current
state and the fetch outcome to the final state together with whether the
remote call was made.  The early-return validation guard
(`!homePostcode || !workPostcode || !travelMethod`) fires on empty strings
and skips the fetch; otherwise `isLoading` is set and cleared around the
call, `!response.ok` raises `Error("Failed to calculate carbon emissions")`,
and the `catch` stores `err.message` (all modelled rejections are `Error`
instances). -/
def handleVisualize (s : CalcState) (outcome : FetchOutcome) : CalcState × Bool :=
  if s.homePostcode = "" ∨ s.workPostcode = "" ∨ s.travelMethod = "" then
    ({ s with error := some "Please fill in all fields" }, false)
  else
    let s1 := { s with isLoading := true, error := none }
    match outcome with
    | .fetchReject msg => ({ s1 with error := some msg, isLoading := false }, true)
    | .httpError =>
        ({ s1 with error := some "Failed to calculate carbon emissions", isLoading := false }, true)
    | .jsonReject msg => ({ s1 with error := some msg, isLoading := false }, true)
    | .success e =>
        ({ s1 with
            carbonEmissions := some e
            treesNeeded := jsCalculateTreesNeeded e
            isLoading := false }, true)

/-- One character of `application/x-www-form-urlencoded` encoding:
unreserved characters kept, space becomes `+`, everything else
percent-encoded per UTF-8 byte. -/
def hexDigit (n : ℕ) : Char :=
  if n < 10 then Char.ofNat ('0'.toNat + n) else Char.ofNat ('A'.toNat + (n - 10))

def percentByte (b : UInt8) : List Char :=
  ['%', hexDigit (b.toNat / 16), hexDigit (b.toNat % 16)]

def formEncodeChar (c : Char) : List Char :=
  if c.isAlphanum ∨ c = '-' ∨ c = '_' ∨ c = '.' ∨ c = '*' then [c]
  else if c = ' ' then ['+']
  else (String.singleton c).toUTF8.toList.flatMap percentByte

/-- `URLSearchParams.toString()` encoding of one value. -/
def formEncode (s : String) : String := String.mk (s.toList.flatMap formEncodeChar)

/-- `generateShareableLink` (source lines 121–134): empty string when no
estimate exists; otherwise the page URL with its query replaced by exactly
`trees`, `emissions` and (when `travelMethod` is truthy) `method`, in that
order, values serialised by `toString()` and `URLSearchParams` encoding.
Postcodes are never read.  `base` stands for `window.location.href` with its
query stripped (`url.search = ""`). -/
def generateShareableLink (base : String) (s : CalcState) : String :=
  match s.carbonEmissions with
  | none => ""
  | some ce =>
    base ++ "?" ++
      "trees=" ++ formEncode (jsNumToString s.treesNeeded) ++
      "&emissions=" ++ formEncode (jsNumToString ce) ++
      (if s.travelMethod ≠ "" then "&method=" ++ formEncode s.travelMethod else "")

/-! ## Events and reachability -/

/-- The discrete events that drive the component: the mount-time decode
effect, the three controlled-input `onChange` handlers, a submission with
its fetch outcome, and the shared-view reset button. -/
inductive Event where
  | load
  | setHome (v : String)
  | setWork (v : String)
  | setMethod (v : String)
  | visualize (outcome : FetchOutcome)
  | resetShared
deriving DecidableEq, Repr

/-- One step of the component.  `load` runs the decode effect against the
current URL query; `resetShared` is the shared-view button (source lines
311–321): `window.history.pushState({}, "", window.location.pathname)`
clears the query string and `setIsSharedView(false)` clears the flag (the
button only renders in shared view). -/
def step (w : World) : Event → World
  | .load =>
      { w with comp := (applySharedDecode (getParam w.query "trees")
          (getParam w.query "emissions") (getParam w.query "method") w.comp) }
  | .setHome v => { w with comp := { w.comp with homePostcode := v } }
  | .setWork v => { w with comp := { w.comp with workPostcode := v } }
  | .setMethod v => { w with comp := { w.comp with travelMethod := v } }
  | .visualize outcome => { w with comp := (handleVisualize w.comp outcome).1 }
  | .resetShared =>
      if w.comp.isSharedView then
        { comp := { w.comp with isSharedView := false }, query := [] }
      else w

/-- The world at page load, before any event: fresh state, incoming query. -/
def initWorld (q : List (String × String)) : World := { comp := initState, query := q }

/-- Run a list of events from a load-time query. -/
def run (q : List (String × String)) (evs : List Event) : World :=
  evs.foldl step (initWorld q)

/-- A world is reachable when some incoming query and event sequence
produce it. -/
def Reachable (w : World) : Prop := ∃ q evs, w = run q evs

/-! ## Render model (for the undefined-identifier claim)

The JSX returned by `PersonalCalculator` references identifiers; rendering
evaluates each referenced identifier in the module scope and raises
`ReferenceError` at the first one that is not defined.  The lead-capture
block (source lines 325–367) renders exactly when `carbonEmissions !== null`
and references `handleRequestInfo` (line 338) then `handleEmailChange`
(line 345). -/

/-- Every identifier bound in the module scope of
`PersonalCommuteCalc.jsx`: imports, the module constant, the two props, the
`useState` bindings, and the four function declarations. -/
def moduleDefinedNames : List String :=
  ["useState", "useEffect", "Tree", "Share2", "KG_CO2_PER_TREE_PER_YEAR",
   "title", "description",
   "homePostcode", "setHomePostcode", "workPostcode", "setWorkPostcode",
   "travelMethod", "setTravelMethod", "carbonEmissions", "setCarbonEmissions",
   "treesNeeded", "setTreesNeeded", "isLoading", "setIsLoading",
   "error", "setError", "shareTooltip", "setShareTooltip",
   "isSharedView", "setIsSharedView", "showTooltip", "setShowTooltip",
   "email", "setEmail", "isSubmitting", "setIsSubmitting",
   "submitStatus", "setSubmitStatus", "errorMessage", "setErrorMessage",
   "calculateTreesNeeded", "handleVisualize", "generateShareableLink", "handleShare"]

/-- Identifiers referenced by the lead-capture CTA block, in evaluation
order (source lines 325–367). -/
def ctaBlockIdents : List String :=
  ["handleRequestInfo", "email", "handleEmailChange", "isSubmitting",
   "submitStatus", "errorMessage"]

/-- Resolve a list of referenced identifiers against the module scope:
`ReferenceError` at the first unresolved name. -/
def resolveIdents (env : List String) : List String → Except String Unit
  | [] => .ok ()
  | n :: ns =>
      if n ∈ env then resolveIdents env ns
      else .error ("ReferenceError: " ++ n ++ " is not defined")

/-- Rendering the component: when an estimate is present
(`carbonEmissions !== null`, source line 325) the CTA block is evaluated;
otherwise the guarded blocks that reference the missing identifiers are
skipped and rendering succeeds. -/
def renderCalculator (s : CalcState) : Except String Unit :=
  match s.carbonEmissions with
  | some _ => resolveIdents moduleDefinedNames ctaBlockIdents
  | none => .ok ()

/-! ## Character-level helper lemmas -/

theorem char_isLower_eq (c : Char) :
    c.isLower = (decide (97 ≤ c.toNat) && decide (c.toNat ≤ 122)) := by
  simp [Char.isLower, Char.toNat, UInt32.le_def, BitVec.le_def, UInt32.toNat]

theorem char_isUpper_eq (c : Char) :
    c.isUpper = (decide (65 ≤ c.toNat) && decide (c.toNat ≤ 90)) := by
  simp [Char.isUpper, Char.toNat, UInt32.le_def, BitVec.le_def, UInt32.toNat]

theorem char_toNat_ofNat_small (m : ℕ) (h : m < 55296) : (Char.ofNat m).toNat = m := by
  rw [Char.ofNat, dif_pos (Or.inl h)]
  simp [Char.ofNatAux, Char.toNat, UInt32.toNat, BitVec.toNat_ofNatLt]

theorem char_toUpper_not_lower (c : Char) : (Char.toUpper c).isLower = false := by
  unfold Char.toUpper
  by_cases h : Char.toNat c ≥ 97 ∧ Char.toNat c ≤ 122
  · rw [if_pos h, char_isLower_eq, char_toNat_ofNat_small _ (by omega)]
    simp only [Bool.and_eq_false_iff, decide_eq_false_iff_not]
    omega
  · rw [if_neg h, char_isLower_eq]
    simp only [Bool.and_eq_false_iff, decide_eq_false_iff_not]
    omega

theorem char_toLower_not_upper (c : Char) : (Char.toLower c).isUpper = false := by
  unfold Char.toLower
  by_cases h : Char.toNat c ≥ 65 ∧ Char.toNat c ≤ 90
  · rw [if_pos h, char_isUpper_eq, char_toNat_ofNat_small _ (by omega)]
    simp only [Bool.and_eq_false_iff, decide_eq_false_iff_not]
    omega
  · rw [if_neg h, char_isUpper_eq]
    simp only [Bool.and_eq_false_iff, decide_eq_false_iff_not]
    omega

theorem char_toUpper_eq_space (c : Char) (h : Char.toUpper c = ' ') : c = ' ' := by
  unfold Char.toUpper at h
  by_cases hc : Char.toNat c ≥ 97 ∧ Char.toNat c ≤ 122
  · rw [if_pos hc] at h
    have h2 := congrArg Char.toNat h
    rw [char_toNat_ofNat_small _ (by omega)] at h2
    have h3 : Char.toNat ' ' = 32 := rfl
    rw [h3] at h2
    exact absurd h2 (by omega)
  · rwa [if_neg hc] at h

theorem not_mem_removeFirstSpace (l : List Char) (h : l.count ' ' ≤ 1) :
    ' ' ∉ removeFirstSpace l := by
  induction l with
  | nil => simp [removeFirstSpace]
  | cons c cs ih =>
    rw [removeFirstSpace]
    simp only [List.count_cons] at h
    by_cases hc : c = ' '
    · rw [if_pos hc]
      subst hc
      have h0 : cs.count ' ' = 0 := by simpa using h
      exact (List.count_eq_zero.mp h0)
    · rw [if_neg hc]
      intro hm
      rcases List.mem_cons.mp hm with h1 | h1
      · exact hc h1.symm
      · exact ih (by omega) h1

theorem space_not_mem_map_toUpper (l : List Char) (h : ' ' ∉ l) :
    ' ' ∉ l.map Char.toUpper := by
  intro hm
  obtain ⟨c, hc, hce⟩ := List.mem_map.mp hm
  exact h (char_toUpper_eq_space c hce ▸ hc)

/-! ## Digit printing and re-parsing

Correctness of the decimal printer (`natToDigits`, `intToDecString`,
`qToDecString`) against the parsers, used for the universal shared-link
round-trip theorem. -/

theorem char_isDigit_eq (c : Char) :
    c.isDigit = (decide (48 ≤ c.toNat) && decide (c.toNat ≤ 57)) := by
  simp [Char.isDigit, Char.toNat, UInt32.le_def, BitVec.le_def, UInt32.toNat]

theorem digitChar_toNat (d : ℕ) (h : d < 10) : (digitChar d).toNat = 48 + d := by
  unfold digitChar
  exact char_toNat_ofNat_small _ (by omega)

theorem digitChar_isDigit (d : ℕ) (h : d < 10) : (digitChar d).isDigit = true := by
  rw [char_isDigit_eq, digitChar_toNat d h]
  simp only [Bool.and_eq_true, decide_eq_true_eq]
  omega

theorem digitVal_digitChar (d : ℕ) (h : d < 10) : digitVal (digitChar d) = d := by
  unfold digitVal
  rw [digitChar_toNat d h, show Char.toNat (Char.ofNat 48) = 48 from rfl]
  omega

theorem isDigit_ne_minus (c : Char) (h : c.isDigit = true) : c ≠ '-' :=
  fun he => absurd (he ▸ h) (by decide)

theorem isDigit_ne_plus (c : Char) (h : c.isDigit = true) : c ≠ '+' :=
  fun he => absurd (he ▸ h) (by decide)

theorem digitsVal_append (xs ys : List Char) :
    digitsVal (xs ++ ys) = digitsVal xs * 10 ^ ys.length + digitsVal ys := by
  induction xs with
  | nil => simp [digitsVal]
  | cons c cs ih =>
    rw [List.cons_append,
      show digitsVal (c :: (cs ++ ys)) = digitVal c * 10 ^ (cs ++ ys).length + digitsVal (cs ++ ys)
        from rfl,
      show digitsVal (c :: cs) = digitVal c * 10 ^ cs.length + digitsVal cs from rfl,
      ih, List.length_append]
    ring

theorem digitsVal_replicate_zero (j : ℕ) : digitsVal (List.replicate j '0') = 0 := by
  induction j with
  | zero => rfl
  | succ j ih => simp [List.replicate_succ, digitsVal, ih, digitVal, Nat.sub_self]

theorem digitsVal_padZeros (n : ℕ) (ds : List Char) :
    digitsVal (padZeros n ds) = digitsVal ds := by
  unfold padZeros
  rw [digitsVal_append, digitsVal_replicate_zero]
  simp

theorem natDigitsAux_spec : ∀ fuel n, n ≤ fuel →
    digitsVal (natDigitsAux fuel n) = n ∧
    ∀ c ∈ natDigitsAux fuel n, c.isDigit = true := by
  intro fuel
  induction fuel with
  | zero =>
    intro n hn
    have hn0 : n = 0 := by omega
    subst hn0
    exact ⟨rfl, by simp [natDigitsAux]⟩
  | succ fuel ih =>
    intro n hn
    by_cases h0 : n = 0
    · subst h0
      exact ⟨rfl, by simp [natDigitsAux]⟩
    · have heq : natDigitsAux (fuel + 1) n
          = natDigitsAux fuel (n / 10) ++ [digitChar (n % 10)] := by
        simp only [natDigitsAux]
        rw [if_neg h0]
      have hdiv : n / 10 ≤ fuel := by
        have := Nat.div_lt_self (Nat.pos_of_ne_zero h0) (by norm_num : (1:ℕ) < 10)
        omega
      obtain ⟨ihv, ihd⟩ := ih (n / 10) hdiv
      constructor
      · rw [heq, digitsVal_append, ihv]
        simp only [List.length_cons, List.length_nil, digitsVal,
          digitVal_digitChar (n % 10) (Nat.mod_lt n (by norm_num))]
        omega
      · intro c hc
        rw [heq] at hc
        rcases List.mem_append.mp hc with h1 | h1
        · exact ihd c h1
        · rw [List.mem_singleton.mp h1]
          exact digitChar_isDigit _ (Nat.mod_lt n (by norm_num))

theorem natToDigits_val (n : ℕ) : digitsVal (natToDigits n) = n := by
  unfold natToDigits
  by_cases h : n = 0
  · subst h
    rfl
  · rw [if_neg h]
    exact (natDigitsAux_spec n n le_rfl).1

theorem natToDigits_digits (n : ℕ) : ∀ c ∈ natToDigits n, c.isDigit = true := by
  unfold natToDigits
  by_cases h : n = 0
  · subst h
    intro c hc
    rw [List.mem_singleton.mp hc]
    decide
  · rw [if_neg h]
    exact (natDigitsAux_spec n n le_rfl).2

theorem natToDigits_ne_nil (n : ℕ) : natToDigits n ≠ [] := by
  unfold natToDigits
  by_cases h : n = 0
  · simp [h]
  · rw [if_neg h]
    cases n with
    | zero => exact absurd rfl h
    | succ m =>
      simp only [natDigitsAux]
      rw [if_neg h]
      simp

theorem takeWhile_append_all (p : Char → Bool) (xs ys : List Char)
    (h : ∀ c ∈ xs, p c = true) :
    (xs ++ ys).takeWhile p = xs ++ ys.takeWhile p := by
  induction xs with
  | nil => simp
  | cons c cs ih =>
    rw [List.cons_append, List.takeWhile_cons, h c (List.mem_cons_self c cs)]
    simp only [if_true]
    rw [ih (fun d hd => h d (List.mem_cons_of_mem c hd)), List.cons_append]

theorem dropWhile_append_all (p : Char → Bool) (xs ys : List Char)
    (h : ∀ c ∈ xs, p c = true) :
    (xs ++ ys).dropWhile p = ys.dropWhile p := by
  induction xs with
  | nil => simp
  | cons c cs ih =>
    rw [List.cons_append, List.dropWhile_cons, h c (List.mem_cons_self c cs)]
    simp only [if_true]
    exact ih (fun d hd => h d (List.mem_cons_of_mem c hd))

theorem takeWhile_all_eq (p : Char → Bool) (xs : List Char)
    (h : ∀ c ∈ xs, p c = true) : xs.takeWhile p = xs := by
  have h2 := takeWhile_append_all p xs [] h
  simpa using h2

theorem dropWhile_all_eq (p : Char → Bool) (xs : List Char)
    (h : ∀ c ∈ xs, p c = true) : xs.dropWhile p = [] := by
  have h2 := dropWhile_append_all p xs [] h
  simpa using h2

theorem parseSign_no_sign (l : List Char)
    (h : ∀ c l2, l = c :: l2 → c ≠ '-' ∧ c ≠ '+') : parseSign l = (1, l) := by
  cases l with
  | nil => rfl
  | cons c cs =>
    obtain ⟨h1, h2⟩ := h c cs rfl
    unfold parseSign
    split
    · next heq =>
      injection heq with hc _
      exact absurd hc h1
    · next heq =>
      injection heq with hc _
      exact absurd hc h2
    · rfl

theorem list_isEmpty_false (c : Char) (cs : List Char) : (c :: cs).isEmpty = false := rfl

theorem parseIntJS_mk_digits (ds : List Char) (hne : ds ≠ [])
    (hd : ∀ c ∈ ds, c.isDigit = true) :
    parseIntJS (String.mk ds) = .num ((digitsVal ds : ℤ) : ℚ) := by
  have hsign : parseSign ds = (1, ds) := parseSign_no_sign ds (by
    intro c l2 hl
    subst hl
    exact ⟨isDigit_ne_minus c (hd c (List.mem_cons_self c l2)),
           isDigit_ne_plus c (hd c (List.mem_cons_self c l2))⟩)
  have hemp : ds.isEmpty = false := by
    cases ds with
    | nil => exact absurd rfl hne
    | cons c cs => rfl
  unfold parseIntJS
  simp only [show (String.mk ds).toList = ds from rfl, hsign,
    show takeDigits ds = ds from takeWhile_all_eq _ ds hd]
  rw [if_neg (by rw [hemp]; simp)]
  rw [one_mul]

theorem parseIntJS_mk_neg_digits (ds : List Char) (hne : ds ≠ [])
    (hd : ∀ c ∈ ds, c.isDigit = true) :
    parseIntJS (String.mk ('-' :: ds)) = .num (-((digitsVal ds : ℤ) : ℚ)) := by
  have hemp : ds.isEmpty = false := by
    cases ds with
    | nil => exact absurd rfl hne
    | cons c cs => rfl
  unfold parseIntJS
  simp only [show (String.mk ('-' :: ds)).toList = '-' :: ds from rfl,
    show parseSign ('-' :: ds) = (-1, ds) from rfl,
    show takeDigits ds = ds from takeWhile_all_eq _ ds hd]
  rw [if_neg (by rw [hemp]; simp)]
  congr 1
  push_cast
  ring

theorem parseFloatJS_mk_digits (ds : List Char) (hne : ds ≠ [])
    (hd : ∀ c ∈ ds, c.isDigit = true) :
    parseFloatJS (String.mk ds) = .num ((digitsVal ds : ℚ)) := by
  have hsign : parseSign ds = (1, ds) := parseSign_no_sign ds (by
    intro c l2 hl
    subst hl
    exact ⟨isDigit_ne_minus c (hd c (List.mem_cons_self c l2)),
           isDigit_ne_plus c (hd c (List.mem_cons_self c l2))⟩)
  have hemp : ds.isEmpty = false := by
    cases ds with
    | nil => exact absurd rfl hne
    | cons c cs => rfl
  unfold parseFloatJS
  simp only [show (String.mk ds).toList = ds from rfl, hsign,
    show takeDigits ds = ds from takeWhile_all_eq _ ds hd,
    show dropDigits ds = [] from dropWhile_all_eq _ ds hd]
  rw [if_neg (by rw [hemp]; simp)]
  congr 1
  push_cast [digitsVal]
  ring

theorem parseFloatJS_mk_neg_digits (ds : List Char) (hne : ds ≠ [])
    (hd : ∀ c ∈ ds, c.isDigit = true) :
    parseFloatJS (String.mk ('-' :: ds)) = .num (-(digitsVal ds : ℚ)) := by
  have hemp : ds.isEmpty = false := by
    cases ds with
    | nil => exact absurd rfl hne
    | cons c cs => rfl
  unfold parseFloatJS
  simp only [show (String.mk ('-' :: ds)).toList = '-' :: ds from rfl,
    show parseSign ('-' :: ds) = (-1, ds) from rfl,
    show takeDigits ds = ds from takeWhile_all_eq _ ds hd,
    show dropDigits ds = [] from dropWhile_all_eq _ ds hd]
  rw [if_neg (by rw [hemp]; simp)]
  congr 1
  push_cast [digitsVal]
  ring

theorem parseFloatJS_mk_point (ip fp : List Char) (hipne : ip ≠ [])
    (hip : ∀ c ∈ ip, c.isDigit = true) (hfp : ∀ c ∈ fp, c.isDigit = true) :
    parseFloatJS (String.mk (ip ++ '.' :: fp))
      = .num ((digitsVal ip : ℚ) + (digitsVal fp : ℚ) / 10 ^ fp.length) := by
  have hsign : parseSign (ip ++ '.' :: fp) = (1, ip ++ '.' :: fp) := parseSign_no_sign _ (by
    intro c l2 hl
    cases ip with
    | nil => exact absurd rfl hipne
    | cons a as =>
      rw [List.cons_append] at hl
      injection hl with hac _
      subst hac
      exact ⟨isDigit_ne_minus a (hip a (List.mem_cons_self a as)),
             isDigit_ne_plus a (hip a (List.mem_cons_self a as))⟩)
  have htake : takeDigits (ip ++ '.' :: fp) = ip := by
    unfold takeDigits
    rw [takeWhile_append_all _ ip _ hip,
      show ('.' :: fp).takeWhile (fun c => c.isDigit) = [] from rfl, List.append_nil]
  have hdrop : dropDigits (ip ++ '.' :: fp) = '.' :: fp := by
    unfold dropDigits
    rw [dropWhile_append_all _ ip _ hip]
    rfl
  have hemp : ip.isEmpty = false := by
    cases ip with
    | nil => exact absurd rfl hipne
    | cons a as => rfl
  unfold parseFloatJS
  simp only [show (String.mk (ip ++ '.' :: fp)).toList = ip ++ '.' :: fp from rfl, hsign,
    htake, hdrop, show takeDigits fp = fp from takeWhile_all_eq _ fp hfp]
  rw [if_neg (by rw [hemp]; simp)]
  congr 1
  push_cast
  ring

theorem parseFloatJS_mk_neg_point (ip fp : List Char) (hipne : ip ≠ [])
    (hip : ∀ c ∈ ip, c.isDigit = true) (hfp : ∀ c ∈ fp, c.isDigit = true) :
    parseFloatJS (String.mk ('-' :: (ip ++ '.' :: fp)))
      = .num (-((digitsVal ip : ℚ) + (digitsVal fp : ℚ) / 10 ^ fp.length)) := by
  have htake : takeDigits (ip ++ '.' :: fp) = ip := by
    unfold takeDigits
    rw [takeWhile_append_all _ ip _ hip,
      show ('.' :: fp).takeWhile (fun c => c.isDigit) = [] from rfl, List.append_nil]
  have hdrop : dropDigits (ip ++ '.' :: fp) = '.' :: fp := by
    unfold dropDigits
    rw [dropWhile_append_all _ ip _ hip]
    rfl
  have hemp : ip.isEmpty = false := by
    cases ip with
    | nil => exact absurd rfl hipne
    | cons a as => rfl
  unfold parseFloatJS
  simp only [show (String.mk ('-' :: (ip ++ '.' :: fp))).toList = '-' :: (ip ++ '.' :: fp) from rfl,
    show parseSign ('-' :: (ip ++ '.' :: fp)) = (-1, ip ++ '.' :: fp) from rfl,
    htake, hdrop, show takeDigits fp = fp from takeWhile_all_eq _ fp hfp]
  rw [if_neg (by rw [hemp]; simp)]
  congr 1
  push_cast
  ring

theorem decExp_dvd (d k : ℕ) (h : decExp d = some k) : d ∣ 10 ^ k ∧ d ≠ 0 := by
  simp only [decExp] at h
  by_cases hc : d = 2 ^ countFactor 2 d d * 5 ^ countFactor 5 d d
  · rw [if_pos hc] at h
    injection h with hk
    constructor
    · rw [hc, show (10:ℕ) ^ k = 2 ^ k * 5 ^ k from by rw [← Nat.mul_pow]]
      exact mul_dvd_mul (pow_dvd_pow 2 (by omega)) (pow_dvd_pow 5 (by omega))
    · rw [hc]
      positivity
  · rw [if_neg hc] at h
    exact absurd h (by simp)

theorem intToDecString_spec (v : ℤ) :
    parseIntJS (intToDecString v) = .num ((v : ℚ)) ∧
    parseFloatJS (intToDecString v) = .num ((v : ℚ)) ∧
    (intToDecString v).toList ≠ [] ∧
    ∀ c ∈ (intToDecString v).toList, c.isDigit = true ∨ c = '-' := by
  have hne := natToDigits_ne_nil v.natAbs
  have hd := natToDigits_digits v.natAbs
  by_cases hv : v < 0
  · have hvq : ((v : ℚ)) < 0 := by exact_mod_cast hv
    have hs : intToDecString v = String.mk ('-' :: natToDigits v.natAbs) := by
      unfold intToDecString
      rw [if_pos hv]
      rfl
    rw [hs]
    refine ⟨?_, ?_, by simp, ?_⟩
    · rw [parseIntJS_mk_neg_digits _ hne hd, natToDigits_val]
      congr 1
      push_cast
      rw [abs_of_neg hvq]
      ring
    · rw [parseFloatJS_mk_neg_digits _ hne hd, natToDigits_val]
      congr 1
      rw [Int.cast_natAbs, abs_of_neg hv]
      push_cast
      ring
    · intro c hc
      rcases List.mem_cons.mp hc with h1 | h1
      · exact Or.inr h1
      · exact Or.inl (hd c h1)
  · have hvq : (0 : ℚ) ≤ ((v : ℚ)) := by
      have h0 : (0 : ℤ) ≤ v := by omega
      exact_mod_cast h0
    have hs : intToDecString v = String.mk (natToDigits v.natAbs) := by
      unfold intToDecString
      rw [if_neg hv]
      rfl
    rw [hs]
    refine ⟨?_, ?_, by simpa using hne, ?_⟩
    · rw [parseIntJS_mk_digits _ hne hd, natToDigits_val]
      congr 1
      push_cast
      rw [abs_of_nonneg hvq]
    · rw [parseFloatJS_mk_digits _ hne hd, natToDigits_val]
      congr 1
      have hv0 : (0 : ℤ) ≤ v := by omega
      rw [Int.cast_natAbs, abs_of_nonneg hv0]
    · intro c hc
      exact Or.inl (hd c hc)

theorem qToDecString_spec (q : ℚ) (k : ℕ) (h : decExp q.den = some k) :
    parseFloatJS (qToDecString q) = .num q ∧
    (qToDecString q).toList ≠ [] ∧
    ∀ c ∈ (qToDecString q).toList, c.isDigit = true ∨ c = '-' ∨ c = '.' := by
  obtain ⟨hdvd, hdne⟩ := decExp_dvd q.den k h
  set m : ℤ := q.num * ((10 ^ k : ℤ) / (q.den : ℤ)) with hm
  have hdenQ : ((q.den : ℕ) : ℚ) ≠ 0 := by exact_mod_cast hdne
  have hdvdZ : ((q.den : ℕ) : ℤ) ∣ (10:ℤ) ^ k := by exact_mod_cast hdvd
  have h10 : ((10:ℤ) ^ k / ((q.den : ℕ) : ℤ)) * ((q.den : ℕ) : ℤ) = 10 ^ k :=
    Int.ediv_mul_cancel hdvdZ
  have hq2 : q * ((q.den : ℕ) : ℚ) = ((q.num : ℤ) : ℚ) := by
    have h4 : ((q.num : ℤ) : ℚ) / ((q.den : ℕ) : ℚ) * ((q.den : ℕ) : ℚ) = ((q.num : ℤ) : ℚ) :=
      div_mul_cancel₀ _ hdenQ
    rw [Rat.num_div_den q] at h4
    exact h4
  have hmq : (m : ℚ) = q * 10 ^ k := by
    have hz : m * ((q.den : ℕ) : ℤ) = q.num * 10 ^ k := by
      rw [hm, mul_assoc, h10]
    have hzq : (m : ℚ) * ((q.den : ℕ) : ℚ) = ((q.num : ℤ) : ℚ) * (10:ℚ) ^ k := by
      exact_mod_cast congrArg (fun z : ℤ => (z : ℚ)) hz
    have h2 : (m : ℚ) * ((q.den : ℕ) : ℚ) = (q * 10 ^ k) * ((q.den : ℕ) : ℚ) := by
      rw [hzq, ← hq2]
      ring
    exact mul_right_cancel₀ hdenQ h2
  by_cases hk : k = 0
  · subst hk
    have hstr : qToDecString q = intToDecString m := by
      simp only [qToDecString, h]
      rw [if_pos trivial, hm]
    rw [hstr]
    obtain ⟨hpi, hpf, hne, hcc⟩ := intToDecString_spec m
    refine ⟨?_, hne, fun c hc => (hcc c hc).imp id Or.inl⟩
    rw [hpf]
    congr 1
    rw [hmq]
    norm_num
  · set L : List Char := padZeros (k + 1) (natToDigits m.natAbs) with hL
    set ip : List Char := L.take (L.length - k) with hip
    set fp : List Char := L.drop (L.length - k) with hfp
    have hstr : qToDecString q
        = (if m < 0 then "-" else "") ++ String.mk ip ++ "." ++ String.mk fp := by
      simp only [qToDecString, h]
      rw [if_neg hk, ← hm, ← hL, ← hip, ← hfp]
    have hLd : ∀ c ∈ L, c.isDigit = true := by
      intro c hc
      rw [hL] at hc
      unfold padZeros at hc
      rcases List.mem_append.mp hc with h1 | h1
      · rw [List.eq_of_mem_replicate h1]
        decide
      · exact natToDigits_digits _ c h1
    have hLval : digitsVal L = m.natAbs := by
      rw [hL, digitsVal_padZeros, natToDigits_val]
    have hLlen : k + 1 ≤ L.length := by
      rw [hL]
      unfold padZeros
      rw [List.length_append, List.length_replicate]
      omega
    have hiplen : ip.length = L.length - k := by
      rw [hip, List.length_take]
      omega
    have hfplen : fp.length = k := by
      rw [hfp, List.length_drop]
      omega
    have hipne : ip ≠ [] := by
      intro hnil
      rw [hnil] at hiplen
      simp only [List.length_nil] at hiplen
      omega
    have hsplit : ip ++ fp = L := by
      rw [hip, hfp]
      exact List.take_append_drop _ L
    have hipd : ∀ c ∈ ip, c.isDigit = true := fun c hc =>
      hLd c (by rw [← hsplit]; exact List.mem_append.mpr (Or.inl hc))
    have hfpd : ∀ c ∈ fp, c.isDigit = true := fun c hc =>
      hLd c (by rw [← hsplit]; exact List.mem_append.mpr (Or.inr hc))
    have hvalsplit : digitsVal ip * 10 ^ k + digitsVal fp = m.natAbs := by
      rw [← hLval, ← hsplit, digitsVal_append, hfplen]
    have hvq : (digitsVal ip : ℚ) * 10 ^ k + (digitsVal fp : ℚ) = ((m.natAbs : ℕ) : ℚ) := by
      exact_mod_cast congrArg (fun n : ℕ => (n : ℚ)) hvalsplit
    have h10q : ((10:ℚ)) ^ k ≠ 0 := by positivity
    rw [hstr]
    by_cases hmneg : m < 0
    · have hmQ : ((m : ℚ)) < 0 := by exact_mod_cast hmneg
      have hna : ((m.natAbs : ℕ) : ℚ) = -(m : ℚ) := by
        rw [Int.cast_natAbs, abs_of_neg hmneg]
        push_cast
        ring
      have hstr2 : (if m < 0 then "-" else "") ++ String.mk ip ++ "." ++ String.mk fp
          = String.mk ('-' :: (ip ++ '.' :: fp)) := by
        rw [if_pos hmneg]
        show String.mk ((('-' :: ip) ++ ['.']) ++ fp) = String.mk ('-' :: (ip ++ '.' :: fp))
        congr 1
        simp
      rw [hstr2]
      refine ⟨?_, by simp, ?_⟩
      · rw [parseFloatJS_mk_neg_point ip fp hipne hipd hfpd, hfplen]
        congr 1
        calc -((digitsVal ip : ℚ) + (digitsVal fp : ℚ) / 10 ^ k)
            = -(((digitsVal ip : ℚ) * 10 ^ k + (digitsVal fp : ℚ)) / 10 ^ k) := by
              field_simp
          _ = -(((m.natAbs : ℕ) : ℚ) / 10 ^ k) := by rw [hvq]
          _ = -((-(m : ℚ)) / 10 ^ k) := by rw [hna]
          _ = (m : ℚ) / 10 ^ k := by ring
          _ = q := by rw [hmq, mul_div_assoc, div_self h10q, mul_one]
      · intro c hc
        have hc2 : c ∈ '-' :: (ip ++ '.' :: fp) := hc
        rcases List.mem_cons.mp hc2 with h1 | h1
        · exact Or.inr (Or.inl h1)
        · rcases List.mem_append.mp h1 with h2 | h2
          · exact Or.inl (hipd c h2)
          · rcases List.mem_cons.mp h2 with h3 | h3
            · exact Or.inr (Or.inr h3)
            · exact Or.inl (hfpd c h3)
    · have hmQ : (0 : ℚ) ≤ ((m : ℚ)) := by
        have h0 : (0 : ℤ) ≤ m := by omega
        exact_mod_cast h0
      have hna : ((m.natAbs : ℕ) : ℚ) = (m : ℚ) := by
        have hm0 : (0 : ℤ) ≤ m := by omega
        rw [Int.cast_natAbs, abs_of_nonneg hm0]
      have hstr2 : (if m < 0 then "-" else "") ++ String.mk ip ++ "." ++ String.mk fp
          = String.mk (ip ++ '.' :: fp) := by
        rw [if_neg hmneg]
        show String.mk ((ip ++ ['.']) ++ fp) = String.mk (ip ++ '.' :: fp)
        congr 1
        simp
      rw [hstr2]
      have hlne : ip ++ '.' :: fp ≠ [] := by simp
      refine ⟨?_, by simpa using hlne, ?_⟩
      · rw [parseFloatJS_mk_point ip fp hipne hipd hfpd, hfplen]
        congr 1
        calc (digitsVal ip : ℚ) + (digitsVal fp : ℚ) / 10 ^ k
            = ((digitsVal ip : ℚ) * 10 ^ k + (digitsVal fp : ℚ)) / 10 ^ k := by
              field_simp
          _ = ((m.natAbs : ℕ) : ℚ) / 10 ^ k := by rw [hvq]
          _ = (m : ℚ) / 10 ^ k := by rw [hna]
          _ = q := by rw [hmq, mul_div_assoc, div_self h10q, mul_one]
      · intro c hc
        have hc2 : c ∈ ip ++ '.' :: fp := hc
        rcases List.mem_append.mp hc2 with h2 | h2
        · exact Or.inl (hipd c h2)
        · rcases List.mem_cons.mp h2 with h3 | h3
          · exact Or.inr (Or.inr h3)
          · exact Or.inl (hfpd c h3)

theorem qToDecString_intCast (v : ℤ) : qToDecString ((v : ℚ)) = intToDecString v := by
  have h : decExp ((v : ℚ)).den = some 0 := by
    rw [Rat.den_intCast]
    rfl
  simp only [qToDecString, h]
  rw [Rat.num_intCast, Rat.den_intCast]
  norm_num

theorem flatMap_id_of_eq_singleton (f : Char → List Char) (l : List Char)
    (h : ∀ c ∈ l, f c = [c]) : l.flatMap f = l := by
  induction l with
  | nil => rfl
  | cons c cs ih =>
    rw [List.flatMap_cons, h c (List.mem_cons_self c cs),
      ih (fun d hd => h d (List.mem_cons_of_mem c hd))]
    rfl

theorem formEncodeChar_digit (c : Char) (h : c.isDigit = true) : formEncodeChar c = [c] := by
  unfold formEncodeChar
  rw [if_pos]
  exact Or.inl (by simp [Char.isAlphanum, h])

theorem formEncode_eq_self (s : String)
    (h : ∀ c ∈ s.toList, c.isDigit = true ∨ c = '-' ∨ c = '.') :
    formEncode s = s := by
  unfold formEncode
  rw [flatMap_id_of_eq_singleton _ _ (fun c hc => by
    rcases h c hc with h1 | h1 | h1
    · exact formEncodeChar_digit c h1
    · rw [h1]
      decide
    · rw [h1]
      decide)]
  rfl

theorem isEmpty_false_of_toList_ne_nil (s : String) (h : s.toList ≠ []) :
    s.isEmpty = false := by
  by_cases hb : s.isEmpty = true
  · have hs : s = "" := (String.isEmpty_iff s).mp hb
    subst hs
    exact absurd rfl h
  · simpa using hb

theorem truthy_of_toList_ne_nil (s : String) (h : s.toList ≠ []) : truthy (some s) = true := by
  show (!s.isEmpty) = true
  rw [isEmpty_false_of_toList_ne_nil s h]
  rfl

theorem generateShareableLink_decoded (base t e : String)
    (ht : truthy (some t) = true) (he2 : truthy (some e) = true) :
    generateShareableLink base (applySharedDecode (some t) (some e) none initState)
      = base ++ "?" ++ "trees=" ++ formEncode (jsNumToString (parseIntJS t))
        ++ "&emissions=" ++ formEncode (jsNumToString (parseFloatJS e)) ++ "" := by
  unfold applySharedDecode
  rw [if_pos ⟨ht, he2⟩]
  rfl

/-! ## Evaluation lemmas for the JavaScript parsers

Concrete parses used by the claims.  The structural (string/list/ℕ) part of
each computation is discharged by `rfl`; the residual exact-rational
arithmetic by `norm_num`. -/

theorem parseIntJS_one : parseIntJS "1" = .num 1 := by
  have h : parseIntJS "1" = .num ((((1 : ℤ) * ((1 : ℕ) : ℤ) : ℤ)) : ℚ) := rfl
  rw [h]
  congr 1

theorem parseIntJS_abc : parseIntJS "abc" = .nan := rfl

theorem parseIntJS_neg_five : parseIntJS "-5" = .num (-5) := by
  have h : parseIntJS "-5" = .num (((((-1) : ℤ) * ((5 : ℕ) : ℤ) : ℤ)) : ℚ) := rfl
  rw [h]
  congr 1

theorem parseIntJS_fortysix : parseIntJS "46" = .num 46 := by
  have h : parseIntJS "46" = .num ((((1 : ℤ) * ((46 : ℕ) : ℤ) : ℤ)) : ℚ) := rfl
  rw [h]
  congr 1

theorem parseIntJS_ninetytwo : parseIntJS "92" = .num 92 := by
  have h : parseIntJS "92" = .num ((((1 : ℤ) * ((92 : ℕ) : ℤ) : ℤ)) : ℚ) := rfl
  rw [h]
  congr 1

theorem parseFloatJS_hundred : parseFloatJS "100" = .num 100 := by
  have h : parseFloatJS "100"
      = .num (((1 : ℤ) : ℚ) * (((100 : ℕ) : ℚ) + ((0 : ℕ) : ℚ) / 10 ^ (0 : ℕ))) := rfl
  rw [h]
  congr 1
  push_cast
  norm_num

theorem parseFloatJS_five : parseFloatJS "5" = .num 5 := by
  have h : parseFloatJS "5"
      = .num (((1 : ℤ) : ℚ) * (((5 : ℕ) : ℚ) + ((0 : ℕ) : ℚ) / 10 ^ (0 : ℕ))) := rfl
  rw [h]
  congr 1
  push_cast
  norm_num

theorem parseFloatJS_five_point_zero : parseFloatJS "5.0" = .num 5 := by
  have h : parseFloatJS "5.0"
      = .num (((1 : ℤ) : ℚ) * (((5 : ℕ) : ℚ) + ((0 : ℕ) : ℚ) / 10 ^ (1 : ℕ))) := rfl
  rw [h]
  congr 1
  push_cast
  norm_num

theorem parseFloatJS_two_point_five : parseFloatJS "2.5" = .num (Rat.mk' 5 2) := by
  have h : parseFloatJS "2.5"
      = .num (((1 : ℤ) : ℚ) * (((2 : ℕ) : ℚ) + ((5 : ℕ) : ℚ) / 10 ^ (1 : ℕ))) := rfl
  rw [h]
  congr 1
  rw [Rat.mk'_eq_divInt]
  push_cast [Rat.divInt_eq_div]
  norm_num

theorem parseFloatJS_two_point_fifty : parseFloatJS "2.50" = .num (Rat.mk' 5 2) := by
  have h : parseFloatJS "2.50"
      = .num (((1 : ℤ) : ℚ) * (((2 : ℕ) : ℚ) + ((50 : ℕ) : ℚ) / 10 ^ (2 : ℕ))) := rfl
  rw [h]
  congr 1
  rw [Rat.mk'_eq_divInt]
  push_cast [Rat.divInt_eq_div]
  norm_num

theorem calculateTreesNeeded_five : calculateTreesNeeded 5 = 92 := by
  norm_num [calculateTreesNeeded, KG_CO2_PER_TREE_PER_YEAR]

/-! ## Claims -/

/-- C1: `calculateTreesNeeded` is a pure function of its argument (no state
is read or written); on every non-negative emissions value `e` it returns
exactly `⌈e * 460 / 25⌉` (equivalently `⌈e * 2 * 230 / 25⌉`), and in
particular `0` for input `0`, `46` for input `2.5`, and `184` for
input `10`. -/
theorem C1_calculateTreesNeeded_formula (e : ℚ) (he : 0 ≤ e) :
    calculateTreesNeeded e = ⌈e * 460 / 25⌉ ∧
    calculateTreesNeeded 0 = 0 ∧
    calculateTreesNeeded (5/2) = 46 ∧
    calculateTreesNeeded 10 = 184 := by
  refine ⟨?_, ?_, ?_, ?_⟩
  · show (⌈e * 2 * 230 / 25⌉ : ℤ) = ⌈e * 460 / 25⌉
    congr 1
    ring
  all_goals norm_num [calculateTreesNeeded, KG_CO2_PER_TREE_PER_YEAR]

/-- Witness for C1 at the concrete input `e = 5/2`. -/
theorem C1_calculateTreesNeeded_formula_witness :
    (0:ℚ) ≤ 5/2 ∧ calculateTreesNeeded (5/2) = ⌈(5/2 : ℚ) * 460 / 25⌉ :=
  ⟨by norm_num, (C1_calculateTreesNeeded_formula (5/2) (by norm_num)).1⟩

/-- C5: submitting with any of the three inputs empty sets the inline
validation error `"Please fill in all fields"`, makes no remote call, and
never enters the loading state. -/
theorem C5_empty_inputs_no_call (s : CalcState) (outcome : FetchOutcome)
    (h : s.homePostcode = "" ∨ s.workPostcode = "" ∨ s.travelMethod = "") :
    handleVisualize s outcome =
      ({ s with error := some "Please fill in all fields" }, false) ∧
    (handleVisualize s outcome).2 = false ∧
    (handleVisualize s outcome).1.error = some "Please fill in all fields" ∧
    (handleVisualize s outcome).1.isLoading = s.isLoading := by
  have h1 : handleVisualize s outcome =
      ({ s with error := some "Please fill in all fields" }, false) := by
    unfold handleVisualize
    rw [if_pos h]
  exact ⟨h1, by rw [h1], by rw [h1], by rw [h1]⟩

/-- Witness for C5: the fresh state has all three inputs empty, and the
submission makes no remote call. -/
theorem C5_empty_inputs_no_call_witness :
    (initState.homePostcode = "" ∨ initState.workPostcode = "" ∨
      initState.travelMethod = "") ∧
    (handleVisualize initState FetchOutcome.httpError).2 = false :=
  ⟨Or.inl rfl, (C5_empty_inputs_no_call initState .httpError (Or.inl rfl)).2.1⟩

/-- C7: the shareable link never depends on the postcode fields — two
states agreeing on estimate, trees count and travel method produce the
identical URL — and when an estimate exists the query part consists of
exactly `trees`, `emissions`, and (when the method is set) `method`, in
that fixed order. -/
theorem C7_link_postcode_free (base : String) (s1 s2 : CalcState)
    (he : s1.carbonEmissions = s2.carbonEmissions)
    (ht : s1.treesNeeded = s2.treesNeeded)
    (hm : s1.travelMethod = s2.travelMethod) :
    generateShareableLink base s1 = generateShareableLink base s2 ∧
    ∀ ce, s1.carbonEmissions = some ce →
      generateShareableLink base s1 =
        base ++ "?" ++ "trees=" ++ formEncode (jsNumToString s1.treesNeeded) ++
          "&emissions=" ++ formEncode (jsNumToString ce) ++
          (if s1.travelMethod ≠ "" then "&method=" ++ formEncode s1.travelMethod
           else "") := by
  constructor
  · unfold generateShareableLink
    rw [he, ht, hm]
  · intro ce hce
    unfold generateShareableLink
    rw [hce]

/-- Witness for C7: two states that differ only in their postcodes encode
to the identical link. -/
theorem C7_link_postcode_free_witness :
    generateShareableLink "https://example.org/commute"
        { initState with homePostcode := "SW1A 1AA", workPostcode := "EC2A 1NT",
                         travelMethod := "Bike", carbonEmissions := some (.num 5),
                         treesNeeded := .num 92 } =
      generateShareableLink "https://example.org/commute"
        { initState with homePostcode := "N1 9GU", workPostcode := "M1 1AE",
                         travelMethod := "Bike", carbonEmissions := some (.num 5),
                         treesNeeded := .num 92 } :=
  (C7_link_postcode_free "https://example.org/commute" _ _ rfl rfl rfl).1

/-- C10: whenever an emissions estimate is present the render evaluates the
lead-capture identifiers `handleRequestInfo` and `handleEmailChange`;
neither is bound anywhere in the module scope, so rendering any result
state raises a `ReferenceError` instead of displaying the result. -/
theorem C10_render_reference_error (s : CalcState) (h : s.carbonEmissions ≠ none) :
    "handleRequestInfo" ∉ moduleDefinedNames ∧
    "handleEmailChange" ∉ moduleDefinedNames ∧
    renderCalculator s = .error "ReferenceError: handleRequestInfo is not defined" := by
  refine ⟨by decide, by decide, ?_⟩
  cases hce : s.carbonEmissions with
  | none => exact absurd hce h
  | some ce =>
    unfold renderCalculator
    rw [hce]
    rfl

/-- Witness for C10 at a concrete result state. -/
theorem C10_render_reference_error_witness :
    ({ initState with carbonEmissions := some (.num 5) } : CalcState).carbonEmissions ≠ none ∧
    renderCalculator { initState with carbonEmissions := some (.num 5) } =
      .error "ReferenceError: handleRequestInfo is not defined" :=
  ⟨by decide, (C10_render_reference_error _ (by decide)).2.2⟩

/-- C2: COUNTEREXAMPLE — the state decoded from a shared link
`?trees=1&emissions=100` is reachable and carries an emissions estimate of
`100`, yet stores `treesNeeded = 1`, while
`⌈100 * 2 * 230 / 25⌉ = 1840`: the trees invariant fails on the decode
path, which stores the `trees` parameter verbatim. -/
theorem C2_counterexample :
    Reachable (run [("trees", "1"), ("emissions", "100")] [Event.load]) ∧
    (run [("trees", "1"), ("emissions", "100")] [Event.load]).comp.carbonEmissions
      = some (JSNum.num 100) ∧
    (run [("trees", "1"), ("emissions", "100")] [Event.load]).comp.treesNeeded
      = JSNum.num 1 ∧
    JSNum.num 1 ≠ JSNum.num ⌈(100 : ℚ) * 2 * 230 / 25⌉ := by
  refine ⟨⟨_, _, rfl⟩, ?_, ?_, ?_⟩
  · have h : (run [("trees", "1"), ("emissions", "100")] [Event.load]).comp.carbonEmissions
        = some (parseFloatJS "100") := rfl
    rw [h, parseFloatJS_hundred]
  · have h : (run [("trees", "1"), ("emissions", "100")] [Event.load]).comp.treesNeeded
        = parseIntJS "1" := rfl
    rw [h, parseIntJS_one]
  · rw [show (⌈(100 : ℚ) * 2 * 230 / 25⌉ : ℤ) = 1840 from by norm_num]
    decide

/-- C2 (amended): the trees invariant holds on the live-estimation path:
after a validated submission whose fetch succeeds with numeric emissions
value `e`, the stored `treesNeeded` equals `⌈e * 2 * 230 / 25⌉` and the
stored estimate equals `e`.  States decoded from shared-link parameters
instead take `treesNeeded` verbatim from the `trees` parameter, so the
invariant is not enforced there. -/
theorem C2_amended_live_invariant (s : CalcState) (e : ℚ)
    (hhome : s.homePostcode ≠ "") (hwork : s.workPostcode ≠ "")
    (hmethod : s.travelMethod ≠ "") :
    (handleVisualize s (.success (.num e))).1.carbonEmissions = some (.num e) ∧
    (handleVisualize s (.success (.num e))).1.treesNeeded
      = .num ⌈e * 2 * 230 / 25⌉ := by
  have hcond : ¬ (s.homePostcode = "" ∨ s.workPostcode = "" ∨ s.travelMethod = "") := by
    push_neg
    exact ⟨hhome, hwork, hmethod⟩
  unfold handleVisualize
  rw [if_neg hcond]
  exact ⟨rfl, rfl⟩

/-- Witness for the amended C2 at a concrete validated submission. -/
theorem C2_amended_live_invariant_witness :
    ("SW1A 1AA" : String) ≠ "" ∧
    (handleVisualize
        { initState with homePostcode := "SW1A 1AA", workPostcode := "EC2A 1NT",
                         travelMethod := "Bike" }
        (.success (.num 5))).1.treesNeeded = .num ⌈(5 : ℚ) * 2 * 230 / 25⌉ :=
  ⟨by decide,
   (C2_amended_live_invariant _ 5 (by decide) (by decide) (by decide)).2⟩

/-- C3: COUNTEREXAMPLE — after a successful estimation (emissions `5`,
trees `92`), a subsequent failing attempt (non-2xx response) sets the error
message but does NOT clear the earlier result: `carbonEmissions` is still
`5` and `treesNeeded` is still `92`, contradicting the claim that no
estimate or trees value is set after a failure regardless of an earlier
success. -/
theorem C3_counterexample :
    (run [] [Event.setHome "SW1A 1AA", Event.setWork "EC2A 1NT",
        Event.setMethod "Bike", Event.visualize (.success (.num 5)),
        Event.visualize .httpError]).comp.error
      = some "Failed to calculate carbon emissions" ∧
    (run [] [Event.setHome "SW1A 1AA", Event.setWork "EC2A 1NT",
        Event.setMethod "Bike", Event.visualize (.success (.num 5)),
        Event.visualize .httpError]).comp.isLoading = false ∧
    (run [] [Event.setHome "SW1A 1AA", Event.setWork "EC2A 1NT",
        Event.setMethod "Bike", Event.visualize (.success (.num 5)),
        Event.visualize .httpError]).comp.carbonEmissions = some (JSNum.num 5) ∧
    (run [] [Event.setHome "SW1A 1AA", Event.setWork "EC2A 1NT",
        Event.setMethod "Bike", Event.visualize (.success (.num 5)),
        Event.visualize .httpError]).comp.treesNeeded = JSNum.num 92 ∧
    some (JSNum.num 5) ≠ (none : Option JSNum) := by
  refine ⟨rfl, rfl, rfl, ?_, by decide⟩
  have h : (run [] [Event.setHome "SW1A 1AA", Event.setWork "EC2A 1NT",
      Event.setMethod "Bike", Event.visualize (.success (.num 5)),
      Event.visualize .httpError]).comp.treesNeeded
        = JSNum.num (calculateTreesNeeded 5) := rfl
  rw [h, calculateTreesNeeded_five]
  exact congrArg JSNum.num (by norm_num)

/-- C3 (amended): every failing estimation attempt (network rejection,
non-2xx response, or malformed payload) after a validated submission ends
with `isLoading = false` and a non-empty error message (the fixed
`"Failed to calculate carbon emissions"` for non-2xx, the transport
`Error`'s own non-empty message otherwise), but leaves `carbonEmissions`
and `treesNeeded` exactly as they were before the attempt — an earlier
successful result is retained, not cleared. -/
theorem C3_amended_failure_keeps_prior (s : CalcState) (outcome : FetchOutcome)
    (hhome : s.homePostcode ≠ "") (hwork : s.workPostcode ≠ "")
    (hmethod : s.travelMethod ≠ "")
    (hfail : ∀ e, outcome ≠ FetchOutcome.success e)
    (hmsg : ∀ m, (outcome = .fetchReject m ∨ outcome = .jsonReject m) → m ≠ "") :
    (∃ msg, msg ≠ "" ∧ (handleVisualize s outcome).1.error = some msg) ∧
    (handleVisualize s outcome).1.isLoading = false ∧
    (handleVisualize s outcome).1.carbonEmissions = s.carbonEmissions ∧
    (handleVisualize s outcome).1.treesNeeded = s.treesNeeded ∧
    (handleVisualize s outcome).2 = true := by
  have hcond : ¬ (s.homePostcode = "" ∨ s.workPostcode = "" ∨ s.travelMethod = "") := by
    push_neg
    exact ⟨hhome, hwork, hmethod⟩
  cases outcome with
  | success e => exact absurd rfl (hfail e)
  | fetchReject m =>
    unfold handleVisualize
    rw [if_neg hcond]
    exact ⟨⟨m, hmsg m (Or.inl rfl), rfl⟩, rfl, rfl, rfl, rfl⟩
  | httpError =>
    unfold handleVisualize
    rw [if_neg hcond]
    exact ⟨⟨"Failed to calculate carbon emissions", by decide, rfl⟩, rfl, rfl, rfl, rfl⟩
  | jsonReject m =>
    unfold handleVisualize
    rw [if_neg hcond]
    exact ⟨⟨m, hmsg m (Or.inr rfl), rfl⟩, rfl, rfl, rfl, rfl⟩

/-- Witness for the amended C3: a non-2xx failure after a prior success
keeps the earlier estimate in state. -/
theorem C3_amended_failure_keeps_prior_witness :
    (handleVisualize
        { initState with homePostcode := "SW1A 1AA", workPostcode := "EC2A 1NT",
                         travelMethod := "Bike", carbonEmissions := some (.num 5),
                         treesNeeded := .num 92 }
        FetchOutcome.httpError).1.carbonEmissions = some (JSNum.num 5) :=
  ((C3_amended_failure_keeps_prior _ .httpError (by decide) (by decide) (by decide)
      (fun _ h => FetchOutcome.noConfusion h)
      (fun _ h => h.elim (fun h1 => FetchOutcome.noConfusion h1)
        (fun h1 => FetchOutcome.noConfusion h1))).2.2.1).trans rfl

/-- C4: COUNTEREXAMPLE — a shared link whose `trees` parameter does not
parse as a non-negative integer still enters shared view: `trees=abc`
produces `SharedResult` with `treesNeeded = NaN`, and `trees=-5` produces
`SharedResult` with `treesNeeded = -5`; the claim says both stay in
`Input`. -/
theorem C4_counterexample :
    (run [("trees", "abc"), ("emissions", "5")] [Event.load]).comp.isSharedView = true ∧
    (run [("trees", "abc"), ("emissions", "5")] [Event.load]).comp.treesNeeded
      = JSNum.nan ∧
    (run [("trees", "-5"), ("emissions", "5")] [Event.load]).comp.isSharedView = true ∧
    (run [("trees", "-5"), ("emissions", "5")] [Event.load]).comp.treesNeeded
      = JSNum.num (-5) := by
  refine ⟨rfl, rfl, rfl, ?_⟩
  have h : (run [("trees", "-5"), ("emissions", "5")] [Event.load]).comp.treesNeeded
      = parseIntJS "-5" := rfl
  rw [h, parseIntJS_neg_five]

/-- C4 (amended): the load-time decode enters `SharedResult` exactly when
both the `trees` and the `emissions` parameters are present and non-empty
(JavaScript truthiness); no parse validation happens, and the stored
values are the raw `parseInt`/`parseFloat` results, which may be `NaN` or
negative.  Either parameter missing or empty leaves the component in
`Input`. -/
theorem C4_amended_truthiness (trees emissions method : Option String)
    (s : CalcState) (h : s.isSharedView = false) :
    ((applySharedDecode trees emissions method s).isSharedView = true ↔
      truthy trees = true ∧ truthy emissions = true) ∧
    (truthy trees = true → truthy emissions = true →
      (applySharedDecode trees emissions method s).treesNeeded
          = parseIntJS (trees.getD "") ∧
      (applySharedDecode trees emissions method s).carbonEmissions
          = some (parseFloatJS (emissions.getD ""))) := by
  unfold applySharedDecode
  by_cases hc : truthy trees = true ∧ truthy emissions = true
  · rw [if_pos hc]
    exact ⟨⟨fun _ => hc, fun _ => rfl⟩, fun _ _ => ⟨rfl, rfl⟩⟩
  · rw [if_neg hc]
    refine ⟨?_, fun h1 h2 => absurd ⟨h1, h2⟩ hc⟩
    rw [h]
    exact iff_of_false (by simp) hc

/-- Witness for the amended C4: an unparseable `trees=abc` with a present
`emissions=5` still enters shared view. -/
theorem C4_amended_truthiness_witness :
    initState.isSharedView = false ∧
    ((applySharedDecode (some "abc") (some "5") none initState).isSharedView = true ↔
      truthy (some "abc") = true ∧ truthy (some "5") = true) :=
  ⟨rfl, (C4_amended_truthiness (some "abc") (some "5") none initState rfl).1⟩

/-- C6: COUNTEREXAMPLE — after loading the shared link
`?trees=92&emissions=5.0&method=Bike` and invoking reset, the query
parameters and the shared-view flag are indeed cleared, but the emissions
value, the trees count and the travel method from the link all remain in
component state, contradicting "no residual estimate ... remains". -/
theorem C6_counterexample :
    (run [("trees", "92"), ("emissions", "5.0"), ("method", "Bike")]
        [Event.load, Event.resetShared]).comp.isSharedView = false ∧
    (run [("trees", "92"), ("emissions", "5.0"), ("method", "Bike")]
        [Event.load, Event.resetShared]).query = [] ∧
    (run [("trees", "92"), ("emissions", "5.0"), ("method", "Bike")]
        [Event.load, Event.resetShared]).comp.carbonEmissions = some (JSNum.num 5) ∧
    (run [("trees", "92"), ("emissions", "5.0"), ("method", "Bike")]
        [Event.load, Event.resetShared]).comp.treesNeeded = JSNum.num 92 ∧
    (run [("trees", "92"), ("emissions", "5.0"), ("method", "Bike")]
        [Event.load, Event.resetShared]).comp.travelMethod = "Bike" := by
  refine ⟨rfl, rfl, ?_, ?_, rfl⟩
  · have h : (run [("trees", "92"), ("emissions", "5.0"), ("method", "Bike")]
        [Event.load, Event.resetShared]).comp.carbonEmissions
          = some (parseFloatJS "5.0") := rfl
    rw [h, parseFloatJS_five_point_zero]
  · have h : (run [("trees", "92"), ("emissions", "5.0"), ("method", "Bike")]
        [Event.load, Event.resetShared]).comp.treesNeeded
          = parseIntJS "92" := rfl
    rw [h, parseIntJS_ninetytwo]

/-- C6 (amended): reset from shared view clears the URL query parameters
and the shared-view flag — so a subsequent reload does not re-enter shared
view — but clears nothing else: the emissions value, the trees count and
the travel method adopted from the shared link all remain in component
state. -/
theorem C6_amended_reset (w : World) (h : w.comp.isSharedView = true) :
    (step w Event.resetShared).query = [] ∧
    (step w Event.resetShared).comp.isSharedView = false ∧
    (step (step w Event.resetShared) Event.load).comp.isSharedView = false ∧
    (step w Event.resetShared).comp.carbonEmissions = w.comp.carbonEmissions ∧
    (step w Event.resetShared).comp.treesNeeded = w.comp.treesNeeded ∧
    (step w Event.resetShared).comp.travelMethod = w.comp.travelMethod := by
  have h1 : step w Event.resetShared =
      { comp := { w.comp with isSharedView := false }, query := [] } := by
    unfold step
    rw [if_pos h]
  refine ⟨by rw [h1], by rw [h1], ?_, by rw [h1], by rw [h1], by rw [h1]⟩
  rw [h1]
  rfl

/-- Witness for the amended C6 at a concrete shared-view world. -/
theorem C6_amended_reset_witness :
    (run [("trees", "92"), ("emissions", "5.0")] [Event.load]).comp.isSharedView = true ∧
    (step (run [("trees", "92"), ("emissions", "5.0")] [Event.load])
        Event.resetShared).query = [] :=
  ⟨rfl, (C6_amended_reset _ rfl).1⟩

/-- C8: COUNTEREXAMPLE — decoding the spec's own example
`trees=46&emissions=2.50` and re-encoding yields the emissions string
`2.5`, not the original `2.50` (`Number.parseFloat("2.50").toString()` is
`"2.5"`), so the claimed identical string round-trip fails. -/
theorem C8_counterexample :
    generateShareableLink "https://example.org/commute"
        (run [("trees", "46"), ("emissions", "2.50")] [Event.load]).comp
      = "https://example.org/commute?trees=46&emissions=2.5" ∧
    ("https://example.org/commute?trees=46&emissions=2.5" : String)
      ≠ "https://example.org/commute?trees=46&emissions=2.50" := by
  constructor
  · have hstate : (run [("trees", "46"), ("emissions", "2.50")] [Event.load]).comp
        = { initState with treesNeeded := parseIntJS "46",
                           carbonEmissions := some (parseFloatJS "2.50"),
                           isSharedView := true } := rfl
    rw [hstate, parseIntJS_fortysix, parseFloatJS_two_point_fifty]
    rfl
  · decide

/-- C8 (amended): for every shared link whose `trees` parameter is the
canonical JavaScript integer string of its value and whose `emissions`
parameter is the canonical JavaScript decimal string of its value (any
integer `v`, and any rational `q` with a finite decimal expansion — e.g.
`2.5` but not `2.50`), decoding and then re-encoding reproduces the
identical `trees` and `emissions` query strings.  In general the
re-encoded link carries exactly the decoded numeric values
(`parseInt`/`parseFloat` of a printed string give back the printed value),
so a non-canonical input such as `2.50` re-encodes canonically as `2.5`:
the value, but not the string, is preserved. -/
theorem C8_amended_roundtrip (base : String) (v : ℤ) (q : ℚ) (k : ℕ)
    (hq : decExp q.den = some k) :
    parseIntJS (intToDecString v) = .num ((v : ℚ)) ∧
    parseFloatJS (qToDecString q) = .num q ∧
    generateShareableLink base
        (run [("trees", intToDecString v), ("emissions", qToDecString q)]
          [Event.load]).comp
      = base ++ "?" ++ "trees=" ++ intToDecString v ++ "&emissions=" ++ qToDecString q := by
  obtain ⟨hpi, _, hvne, hvcc⟩ := intToDecString_spec v
  obtain ⟨hpf, hqne, hqcc⟩ := qToDecString_spec q k hq
  refine ⟨hpi, hpf, ?_⟩
  have hcomp : (run [("trees", intToDecString v), ("emissions", qToDecString q)]
        [Event.load]).comp
      = applySharedDecode (some (intToDecString v)) (some (qToDecString q)) none initState := rfl
  rw [hcomp, generateShareableLink_decoded base _ _
    (truthy_of_toList_ne_nil _ hvne) (truthy_of_toList_ne_nil _ hqne)]
  rw [hpi, hpf,
    show jsNumToString (JSNum.num ((v : ℚ))) = qToDecString ((v : ℚ)) from rfl,
    show jsNumToString (JSNum.num q) = qToDecString q from rfl,
    qToDecString_intCast v,
    formEncode_eq_self _ (fun c hc => (hvcc c hc).imp id Or.inl),
    formEncode_eq_self _ hqcc,
    String.append_empty]

/-- Witness for the amended C8 at the concrete example `trees=46`,
`emissions=2.5` (the rational 5/2): the decoded link re-encodes to the
identical query strings. -/
theorem C8_amended_roundtrip_witness :
    decExp (Rat.mk' 5 2 (by decide) (by decide)).den = some 1 ∧
    intToDecString 46 = "46" ∧
    qToDecString (Rat.mk' 5 2 (by decide) (by decide)) = "2.5" ∧
    generateShareableLink "https://example.org/commute"
        (run [("trees", intToDecString 46), ("emissions", qToDecString (Rat.mk' 5 2 (by decide) (by decide)))]
          [Event.load]).comp
      = "https://example.org/commute" ++ "?" ++ "trees=" ++ intToDecString 46
          ++ "&emissions=" ++ qToDecString (Rat.mk' 5 2 (by decide) (by decide)) :=
  ⟨rfl, rfl, rfl,
   (C8_amended_roundtrip "https://example.org/commute" 46
     (Rat.mk' 5 2 (by decide) (by decide)) 1 (by rfl)).2.2⟩

/-- C9: COUNTEREXAMPLE — `replace(' ', '')` removes only the FIRST space,
so the home postcode `"a b c"` (two spaces) is transmitted as origin
`"AB C"`, which still contains whitespace, contradicting the claim that
the transmitted postcode contains no whitespace. -/
theorem C9_counterexample :
    (buildRequest { initState with homePostcode := "a b c",
                                   workPostcode := "EC2A 1NT",
                                   travelMethod := "Bike" }).origin = "AB C" ∧
    ' ' ∈ ("AB C" : String).toList := by
  exact ⟨rfl, by decide⟩

/-- C9 (amended): before transmission each postcode has its FIRST space
removed (not all whitespace) and is then uppercased, and the travel method
is lowercased: a postcode containing at most one space is transmitted with
no spaces at all; the transmitted postcodes never contain ASCII lowercase
letters, and the transmitted mode never contains ASCII uppercase
letters. -/
theorem C9_amended_normalization (s : CalcState)
    (h1 : s.homePostcode.toList.count ' ' ≤ 1)
    (h2 : s.workPostcode.toList.count ' ' ≤ 1) :
    ' ' ∉ (buildRequest s).origin.toList ∧
    ' ' ∉ (buildRequest s).destination.toList ∧
    (∀ c ∈ (buildRequest s).origin.toList, c.isLower = false) ∧
    (∀ c ∈ (buildRequest s).destination.toList, c.isLower = false) ∧
    (∀ c ∈ (buildRequest s).mode.toList, c.isUpper = false) := by
  have horig : (buildRequest s).origin.toList
      = (removeFirstSpace s.homePostcode.toList).map Char.toUpper := rfl
  have hdest : (buildRequest s).destination.toList
      = (removeFirstSpace s.workPostcode.toList).map Char.toUpper := rfl
  have hmode : (buildRequest s).mode.toList
      = s.travelMethod.toList.map Char.toLower := rfl
  refine ⟨?_, ?_, ?_, ?_, ?_⟩
  · rw [horig]
    exact space_not_mem_map_toUpper _ (not_mem_removeFirstSpace _ h1)
  · rw [hdest]
    exact space_not_mem_map_toUpper _ (not_mem_removeFirstSpace _ h2)
  · intro c hc
    rw [horig] at hc
    obtain ⟨a, _, ha⟩ := List.mem_map.mp hc
    exact ha ▸ char_toUpper_not_lower a
  · intro c hc
    rw [hdest] at hc
    obtain ⟨a, _, ha⟩ := List.mem_map.mp hc
    exact ha ▸ char_toUpper_not_lower a
  · intro c hc
    rw [hmode] at hc
    obtain ⟨a, _, ha⟩ := List.mem_map.mp hc
    exact ha ▸ char_toLower_not_upper a

/-- Witness for the amended C9: a lowercase postcode with one space is
transmitted with no space. -/
theorem C9_amended_normalization_witness :
    ("sw1a 1aa" : String).toList.count ' ' ≤ 1 ∧
    ' ' ∉ (buildRequest { initState with homePostcode := "sw1a 1aa",
                                         workPostcode := "ec2a 1nt",
                                         travelMethod := "Bike" }).origin.toList :=
  ⟨by decide,
   (C9_amended_normalization _ (by decide) (by decide)).1⟩

end JourneyEmissions
